import Mathlib

/-!
# Formal model of the EtherealDev chess-engine core

A shallow embedding, in Lean 4, of the parts of the EtherealDev repository
(an Ethereal-derived UCI chess engine written in C) that its specification
makes claims about:

* the make/unmake machinery of `src/move.c` (`applyMove`, `revertMove`,
  `applyNullMove`, `revertNullMove` and the four per-type apply functions);
* the draw tests and the FEN parser of `src/board.c`;
* the transposition-table store of `src/transposition.c`;
* the fifty-move gate, null-move-pruning guard, time-management update,
  mate-score adjustment (`valueToTT` / `valueFromTT`) and quiescence search
  of `src/search.c`.

Machine integers are modelled as `Nat` (64-bit bitboards never overflow the
operations used here: shifts by < 64, `&&&`, `|||`, `^^^`) and as `Int` where
C uses signed `int`.  C arrays indexed by squares become functions
`Fin 64 → Nat`; the piece-indexed and colour-indexed bitboard arrays
(`uint64_t pieces[8]`, `uint64_t colours[3]`, whose trailing slots are dummy
targets absorbing updates for the EMPTY pseudo-piece) become total functions
`Nat → Nat`.  Tables that live in compilation units outside the snapshot
(`zobrist.c`, `attacks.c`, `masks.c`, the evaluator) enter as explicit
parameters, so every theorem below holds for all of their possible values.
-/

/-! ## Piece encoding (types.h is not in the snapshot)

Modelled from the spec: piece type ∈ {PAWN .. KING} = 0..5, colour ∈
{WHITE, BLACK} = {0, 1}; a coloured piece is the compact index
`4 * type + colour`, with `EMPTY = 26` (type 6, colour 2 — the dummy rows of
`pieces[8]` / `colours[3]`), exactly the layout `psqt.c` relies on with
`WHITE_PAWN = 0`, `BLACK_KING = 21` and `PSQT[32][..]`. -/

def PAWN : Nat := 0

def KNIGHT : Nat := 1

def BISHOP : Nat := 2

def ROOK : Nat := 3

def QUEEN : Nat := 4

def KING : Nat := 5

def EMPTY : Nat := 26

def WHITE : Nat := 0

def BLACK : Nat := 1

/-- `pieceType(piece)`: the type field of a coloured piece. -/
def pieceType (p : Nat) : Nat := p / 4

/-- `pieceColour(piece)`: the colour field of a coloured piece. -/
def pieceColour (p : Nat) : Nat := p % 4

/-- `makePiece(type, colour)`. -/
def makePiece (t c : Nat) : Nat := 4 * t + c

/-- The C sources store the side to move as `int` 0/1 and flip it with
`!turn`; we model it as `Bool` (`false` = WHITE) and index arrays through
`colourIdx`. -/
def colourIdx (t : Bool) : Nat := if t then 1 else 0

/-! ## Move encoding (move.h is not in the snapshot)

Modelled from the spec: a move is 16 bits — bits 0–5 from-square, 6–11
to-square, 12–13 move type (NORMAL, CASTLE, ENPASS, PROMOTION), 14–15 the
promotion piece (knight … queen).  `NONE_MOVE` and `NULL_MOVE` are the two
reserved sentinels (0 and 11, Ethereal's values).  The masks make every
accessor total on `Nat`; on 16-bit inputs they agree with the C macros. -/

def MoveFrom (m : Nat) : Nat := m &&& 63

def MoveTo (m : Nat) : Nat := (m >>> 6) &&& 63

def MoveType (m : Nat) : Nat := m &&& (3 <<< 12)

def NORMAL_MOVE : Nat := 0 <<< 12

def CASTLE_MOVE : Nat := 1 <<< 12

def ENPASS_MOVE : Nat := 2 <<< 12

def PROMOTION_MOVE : Nat := 3 <<< 12

/-- `MovePromoPiece(move) = 1 + (move >> 14)` for a 16-bit move. -/
def MovePromoPiece (m : Nat) : Nat := 1 + ((m >>> 14) &&& 3)

def NONE_MOVE : Nat := 0

def NULL_MOVE : Nat := 11

/-! ## Search constants

Modelled from the spec: `search.h` / `types.h` are not in the snapshot;
`MATE` and `MAX_HEIGHT` carry Ethereal's values (16000 and 128).  The claims
settled with them depend only on `MAX_HEIGHT < MATE`. -/

def MATE : Int := 16000

def MAX_HEIGHT : Nat := 128

/-! ## Mate-score adjustment for transposition storage (search.c:697-707) -/

/-- `valueFromTT(value, height)` (search.c:697-701): shift a stored
mate-distance score back to being relative to the probing ply. -/
def valueFromTT (value : Int) (height : Int) : Int :=
  if value ≥ MATE - MAX_HEIGHT then value - height
  else if value ≤ -MATE + MAX_HEIGHT then value + height
  else value

/-- `valueToTT(value, height)` (search.c:703-707): shift a mate-distance
score to being relative to the root before storing it. -/
def valueToTT (value : Int) (height : Int) : Int :=
  if value ≥ MATE - MAX_HEIGHT then value + height
  else if value ≤ -MATE + MAX_HEIGHT then value - height
  else value

/-! ## The board of move.c / search.c

`src/move.c` and `src/search.c` belong to the engine generation whose board
carries `castleRights` (a 4-bit mask) and `fiftyMoveRule`; the hash history
ring `history[]` together with its length `numMoves` is modelled as a
`List Nat` (pushes append, `numMoves--` drops the last element). -/

@[ext]
structure Board where
  squares : Fin 64 → Nat
  pieces : Nat → Nat
  colours : Nat → Nat
  turn : Bool
  castleRights : Nat
  epSquare : Int
  fiftyMoveRule : Nat
  hash : Nat
  pkhash : Nat
  psqtmat : Int
  kingAttackers : Nat
  history : List Nat

/-- The per-ply `Undo` record saved by `applyMove` (board.h view used by
move.c): hash, pkhash, kingAttackers, castleRights, epSquare,
fiftyMoveRule, psqtmat and the captured piece. -/
structure Undo where
  hash : Nat
  pkhash : Nat
  kingAttackers : Nat
  castleRights : Nat
  epSquare : Int
  fiftyMoveRule : Nat
  psqtmat : Int
  capturePiece : Nat

/-- External tables and routines move.c links against but whose defining
compilation units (`zobrist.c`, `attacks.c`, `masks.c`, the PSQT
initialiser with its `PieceValues`) are not in the snapshot.  Modelled from
the spec: they enter as parameters, so the theorems hold for every choice
of Zobrist keys, PSQT values, attack function and file masks. -/
structure Ctx (β : Type) where
  zobristKeys : Nat → Fin 64 → Nat
  zobristTurnKey : Nat
  zobristEnpassKeys : Nat → Nat
  zobristCastleKeys : Nat → Nat
  psqt : Nat → Fin 64 → Int
  attackersToKingSquare : β → Nat
  adjacentFilesMasks : Nat → Nat

/-- A 6-bit square index: C indexes `squares[64]` with ints that are in
range in every defined execution; the reduction mod 64 makes the model
total (and is the identity on the in-range indices the code produces). -/
def sqFin (n : Nat) : Fin 64 := ⟨n % 64, Nat.mod_lt n (by omega)⟩

/-- `sqFin` for the signed index arithmetic of castle and en-passant
squares. -/
def sqFinI (z : Int) : Fin 64 :=
  ⟨(z % 64).toNat, by
    have h1 : 0 ≤ z % 64 := Int.emod_nonneg z (by omega)
    have h2 : z % 64 < 64 := Int.emod_lt_of_pos z (by omega)
    omega⟩

/-- `fileOf(sq) = sq % 8`. -/
def fileOf (n : Nat) : Nat := n % 8

def RANK_4 : Nat := 0xFF <<< 24

def RANK_5 : Nat := 0xFF <<< 32

/-- A sequence of C statements `arr[i] ^= x` modelled as a left fold of
xor-updates; `applyXorList [(i, x), (j, y)] p` unfolds definitionally to
`Function.update (Function.update p i (p i ^^^ x)) j (… ^^^ y)`. -/
def applyXorList (l : List (Nat × Nat)) (p : Nat → Nat) : Nat → Nat :=
  l.foldl (fun q im => Function.update q im.1 (q im.1 ^^^ im.2)) p

/-- The `CastleMask[64]` table of move.c:35-44. -/
def CastleMaskList : List Nat :=
  [13, 15, 15, 15, 12, 15, 15, 14,
   15, 15, 15, 15, 15, 15, 15, 15,
   15, 15, 15, 15, 15, 15, 15, 15,
   15, 15, 15, 15, 15, 15, 15, 15,
   15, 15, 15, 15, 15, 15, 15, 15,
   15, 15, 15, 15, 15, 15, 15, 15,
   15, 15, 15, 15, 15, 15, 15, 15,
    7, 15, 15, 15,  3, 15, 15, 11]

def CastleMask (sq : Fin 64) : Nat := CastleMaskList.getD sq.val 15

/-- `castleGetRookFrom` (move.c:46-49): `from + table[(to >> 2) & 1]` with
`table = {-4, 3}`. -/
def castleGetRookFrom (f t : Nat) : Int :=
  (f : Int) + (if (t >>> 2) &&& 1 = 1 then 3 else -4)

/-- `castleGetRookTo` (move.c:51-54): table `{-1, 1}`. -/
def castleGetRookTo (f t : Nat) : Int :=
  (f : Int) + (if (t >>> 2) &&& 1 = 1 then 1 else -1)

/-- `applyNormalMove` (move.c:116-171).  Receives the board after the
generic `applyMove` updates (fifty-move increment, turn/en-passant hash);
returns the updated board and the captured piece stored into the undo. -/
def applyNormalMove (ctx : Ctx Board) (b : Board) (m : Nat) : Board × Nat :=
  let f := sqFin (MoveFrom m)
  let t := sqFin (MoveTo m)
  let fromPiece := b.squares f
  let toPiece := b.squares t
  let fromType := pieceType fromPiece
  let toType := pieceType toPiece
  let toColour := pieceColour toPiece
  let bF : Nat := 1 <<< f.val
  let bT : Nat := 1 <<< t.val
  let fifty' := if fromType = PAWN ∨ toPiece ≠ EMPTY then 0 else b.fiftyMoveRule
  let pieces' := applyXorList [(fromType, bF ^^^ bT), (toType, bT)] b.pieces
  let colours' :=
    applyXorList [(colourIdx b.turn, bF ^^^ bT), (toColour, bT)] b.colours
  let squares' := Function.update (Function.update b.squares f EMPTY) t fromPiece
  let castle' := b.castleRights &&& (CastleMask f &&& CastleMask t)
  let psqt' := b.psqtmat + ctx.psqt fromPiece t - ctx.psqt fromPiece f
                 - ctx.psqt toPiece t
  let hash' := b.hash ^^^ ctx.zobristCastleKeys b.castleRights
                 ^^^ ctx.zobristCastleKeys castle'
                 ^^^ ctx.zobristKeys fromPiece f ^^^ ctx.zobristKeys fromPiece t
                 ^^^ ctx.zobristKeys toPiece t
  let pk1 := if fromType = PAWN ∨ fromType = KING then
               b.pkhash ^^^ ctx.zobristKeys fromPiece f
                 ^^^ ctx.zobristKeys fromPiece t
             else b.pkhash
  let pk2 := if toType = PAWN then pk1 ^^^ ctx.zobristKeys toPiece t else pk1
  let enemyPawns := pieces' PAWN &&& colours' (colourIdx (!b.turn))
                      &&& ctx.adjacentFilesMasks (fileOf f.val)
                      &&& (if b.turn then RANK_5 else RANK_4)
  let doublePush := fromType = PAWN ∧ (t.val ^^^ f.val) = 16 ∧ enemyPawns ≠ 0
  ({ b with
    squares := squares', pieces := pieces', colours := colours',
    castleRights := castle', fiftyMoveRule := fifty', psqtmat := psqt',
    pkhash := pk2
    hash := if doublePush then hash' ^^^ ctx.zobristEnpassKeys (fileOf f.val)
            else hash'
    epSquare := if doublePush then
                  (if b.turn then (f.val : Int) - 8 else (f.val : Int) + 8)
                else b.epSquare }, toPiece)

/-- `applyCastleMove` (move.c:173-216). -/
def applyCastleMove (ctx : Ctx Board) (b : Board) (m : Nat) : Board × Nat :=
  let f := sqFin (MoveFrom m)
  let t := sqFin (MoveTo m)
  let rF := sqFinI (castleGetRookFrom f.val t.val)
  let rT := sqFinI (castleGetRookTo f.val t.val)
  let fromPiece := makePiece KING (colourIdx b.turn)
  let rFromPiece := makePiece ROOK (colourIdx b.turn)
  let pieces' := applyXorList
    [(KING, (1 <<< f.val) ^^^ (1 <<< t.val)),
     (ROOK, (1 <<< rF.val) ^^^ (1 <<< rT.val))] b.pieces
  let colours' := applyXorList
    [(colourIdx b.turn, (1 <<< f.val) ^^^ (1 <<< t.val)),
     (colourIdx b.turn, (1 <<< rF.val) ^^^ (1 <<< rT.val))] b.colours
  let squares' := Function.update (Function.update
    (Function.update (Function.update b.squares f EMPTY) t fromPiece)
      rF EMPTY) rT rFromPiece
  let castle' := b.castleRights &&& CastleMask f
  let hash' := b.hash ^^^ ctx.zobristCastleKeys b.castleRights
                 ^^^ ctx.zobristCastleKeys castle'
                 ^^^ ctx.zobristKeys fromPiece f ^^^ ctx.zobristKeys fromPiece t
                 ^^^ ctx.zobristKeys rFromPiece rF
                 ^^^ ctx.zobristKeys rFromPiece rT
  let psqt' := b.psqtmat + ctx.psqt fromPiece t - ctx.psqt fromPiece f
                 + ctx.psqt rFromPiece rT - ctx.psqt rFromPiece rF
  let pk' := b.pkhash ^^^ ctx.zobristKeys fromPiece f
               ^^^ ctx.zobristKeys fromPiece t
  ({ b with
      squares := squares', pieces := pieces', colours := colours',
      castleRights := castle', hash := hash', psqtmat := psqt',
      pkhash := pk' }, EMPTY)

/-- `applyEnpassMove` (move.c:218-254).  `ep = to - 8 + (turn << 4)`. -/
def applyEnpassMove (ctx : Ctx Board) (b : Board) (m : Nat) : Board × Nat :=
  let f := sqFin (MoveFrom m)
  let t := sqFin (MoveTo m)
  let ep := sqFinI ((t.val : Int) - 8 + (if b.turn then 16 else 0))
  let fromPiece := makePiece PAWN (colourIdx b.turn)
  let enpassPiece := makePiece PAWN (colourIdx (!b.turn))
  let pieces' := applyXorList
    [(PAWN, (1 <<< f.val) ^^^ (1 <<< t.val)), (PAWN, 1 <<< ep.val)] b.pieces
  let colours' := applyXorList
    [(colourIdx b.turn, (1 <<< f.val) ^^^ (1 <<< t.val)),
     (colourIdx (!b.turn), 1 <<< ep.val)] b.colours
  let squares' := Function.update (Function.update
    (Function.update b.squares f EMPTY) t fromPiece) ep EMPTY
  let psqt' := b.psqtmat + ctx.psqt fromPiece t - ctx.psqt fromPiece f
                 - ctx.psqt enpassPiece ep
  let hash' := b.hash ^^^ ctx.zobristKeys fromPiece f
                 ^^^ ctx.zobristKeys fromPiece t
                 ^^^ ctx.zobristKeys enpassPiece ep
  let pk' := b.pkhash ^^^ ctx.zobristKeys fromPiece f
               ^^^ ctx.zobristKeys fromPiece t
               ^^^ ctx.zobristKeys enpassPiece ep
  ({ b with
      squares := squares', pieces := pieces', colours := colours',
      fiftyMoveRule := 0, hash := hash', psqtmat := psqt', pkhash := pk' },
   enpassPiece)

/-- `applyPromotionMove` (move.c:256-297). -/
def applyPromotionMove (ctx : Ctx Board) (b : Board) (m : Nat) : Board × Nat :=
  let f := sqFin (MoveFrom m)
  let t := sqFin (MoveTo m)
  let fromPiece := b.squares f
  let toPiece := b.squares t
  let promoPiece := makePiece (MovePromoPiece m) (colourIdx b.turn)
  let toType := pieceType toPiece
  let toColour := pieceColour toPiece
  let promotype := MovePromoPiece m
  let pieces' := applyXorList
    [(PAWN, 1 <<< f.val), (promotype, 1 <<< t.val), (toType, 1 <<< t.val)]
    b.pieces
  let colours' := applyXorList
    [(colourIdx b.turn, (1 <<< f.val) ^^^ (1 <<< t.val)),
     (toColour, 1 <<< t.val)] b.colours
  let squares' :=
    Function.update (Function.update b.squares f EMPTY) t promoPiece
  let castle' := b.castleRights &&& CastleMask t
  let hash' := b.hash ^^^ ctx.zobristCastleKeys b.castleRights
                 ^^^ ctx.zobristCastleKeys castle'
                 ^^^ ctx.zobristKeys fromPiece f
                 ^^^ ctx.zobristKeys promoPiece t ^^^ ctx.zobristKeys toPiece t
  let psqt' := b.psqtmat + ctx.psqt promoPiece t - ctx.psqt fromPiece f
                 - ctx.psqt toPiece t
  let pk' := b.pkhash ^^^ ctx.zobristKeys fromPiece f
  ({ b with
      squares := squares', pieces := pieces', colours := colours',
      fiftyMoveRule := 0, castleRights := castle', hash := hash',
      psqtmat := psqt', pkhash := pk' }, toPiece)

/-- `applyMove` (move.c:76-114): save the recoverable state into the undo,
push the hash into the history, pre-update the fifty-move counter and the
turn/en-passant hash, dispatch on the move type, reset a stale en-passant
square, flip the turn and recompute the king attackers. -/
def applyMove (ctx : Ctx Board) (b : Board) (m : Nat) : Board × Undo :=
  let u : Undo := { hash := b.hash, pkhash := b.pkhash,
                    kingAttackers := b.kingAttackers,
                    castleRights := b.castleRights, epSquare := b.epSquare,
                    fiftyMoveRule := b.fiftyMoveRule, psqtmat := b.psqtmat,
                    capturePiece := 0 }
  let b1 := { b with
    history := b.history ++ [b.hash]
    fiftyMoveRule := b.fiftyMoveRule + 1
    hash := b.hash ^^^ ctx.zobristTurnKey
      ^^^ (if b.epSquare ≠ -1 then
             ctx.zobristEnpassKeys (fileOf b.epSquare.toNat)
           else 0) }
  let r :=
    if MoveType m = NORMAL_MOVE then applyNormalMove ctx b1 m
    else if MoveType m = CASTLE_MOVE then applyCastleMove ctx b1 m
    else if MoveType m = ENPASS_MOVE then applyEnpassMove ctx b1 m
    else applyPromotionMove ctx b1 m
  let b2 := r.1
  let b4 := { b2 with
    epSquare := if b2.epSquare = u.epSquare then -1 else b2.epSquare
    turn := !b2.turn }
  let b5 := { b4 with kingAttackers := ctx.attackersToKingSquare b4 }
  (b5, { u with capturePiece := r.2 })

/-- `applyNullMove` (move.c:299-317).  Only `hash`, `epSquare` and
`fiftyMoveRule` are saved into the undo (`undo->fiftyMoveRule =
board->fiftyMoveRule++` saves the old value and increments); the fields it
leaves unsaved are modelled as 0 — `revertNullMove` never reads them. -/
def applyNullMove (ctx : Ctx Board) (b : Board) : Board × Undo :=
  let u : Undo := { hash := b.hash, pkhash := 0, kingAttackers := 0,
                    castleRights := 0, epSquare := b.epSquare,
                    fiftyMoveRule := b.fiftyMoveRule, psqtmat := 0,
                    capturePiece := 0 }
  let b1 := { b with
    fiftyMoveRule := b.fiftyMoveRule + 1, turn := !b.turn
    history := b.history ++ [b.hash] }
  let b2 := { b1 with
    hash := b1.hash ^^^ ctx.zobristTurnKey ^^^
      (if b.epSquare ≠ -1 then
         ctx.zobristEnpassKeys (fileOf b.epSquare.toNat)
       else 0)
    epSquare := if b.epSquare ≠ -1 then -1 else b.epSquare }
  (b2, u)

/-- `revertMove` (move.c:324-409): restore the saved scalars, flip the
turn, pop the history, then undo the per-type square and bitboard
updates. -/
def revertMove (b : Board) (m : Nat) (u : Undo) : Board :=
  let f := sqFin (MoveFrom m)
  let t := sqFin (MoveTo m)
  let b1 := { b with
    hash := u.hash, pkhash := u.pkhash, kingAttackers := u.kingAttackers
    castleRights := u.castleRights, epSquare := u.epSquare
    fiftyMoveRule := u.fiftyMoveRule, psqtmat := u.psqtmat
    turn := !b.turn, history := b.history.dropLast }
  if MoveType m = NORMAL_MOVE then
    let fromType := pieceType (b1.squares t)
    let toType := pieceType u.capturePiece
    let toColour := pieceColour u.capturePiece
    { b1 with
      pieces := applyXorList
        [(fromType, (1 <<< f.val) ^^^ (1 <<< t.val)), (toType, 1 <<< t.val)]
        b1.pieces,
      colours := applyXorList
        [(colourIdx b1.turn, (1 <<< f.val) ^^^ (1 <<< t.val)),
         (toColour, 1 <<< t.val)] b1.colours,
      squares := Function.update
        (Function.update b1.squares f (b1.squares t)) t u.capturePiece }
  else if MoveType m = CASTLE_MOVE then
    let rF := sqFinI (castleGetRookFrom f.val t.val)
    let rT := sqFinI (castleGetRookTo f.val t.val)
    let s1 := Function.update b1.squares f (b1.squares t)
    let s2 := Function.update s1 t EMPTY
    let s3 := Function.update s2 rF (s2 rT)
    let s4 := Function.update s3 rT EMPTY
    { b1 with
      pieces := applyXorList
        [(KING, (1 <<< f.val) ^^^ (1 <<< t.val)),
         (ROOK, (1 <<< rF.val) ^^^ (1 <<< rT.val))] b1.pieces,
      colours := applyXorList
        [(colourIdx b1.turn, (1 <<< f.val) ^^^ (1 <<< t.val)),
         (colourIdx b1.turn, (1 <<< rF.val) ^^^ (1 <<< rT.val))] b1.colours,
      squares := s4 }
  else if MoveType m = PROMOTION_MOVE then
    let toType := pieceType u.capturePiece
    let toColour := pieceColour u.capturePiece
    let promotype := MovePromoPiece m
    { b1 with
      pieces := applyXorList
        [(PAWN, 1 <<< f.val), (promotype, 1 <<< t.val), (toType, 1 <<< t.val)]
        b1.pieces,
      colours := applyXorList
        [(colourIdx b1.turn, (1 <<< f.val) ^^^ (1 <<< t.val)),
         (toColour, 1 <<< t.val)] b1.colours,
      squares := Function.update
        (Function.update b1.squares f (makePiece PAWN (colourIdx b1.turn)))
        t u.capturePiece }
  else
    let ep := sqFinI ((t.val : Int) - 8 + (if b1.turn then 16 else 0))
    let s1 := Function.update b1.squares f (b1.squares t)
    let s2 := Function.update s1 t EMPTY
    let s3 := Function.update s2 ep u.capturePiece
    { b1 with
      pieces := applyXorList
        [(PAWN, (1 <<< f.val) ^^^ (1 <<< t.val)), (PAWN, 1 <<< ep.val)]
        b1.pieces,
      colours := applyXorList
        [(colourIdx b1.turn, (1 <<< f.val) ^^^ (1 <<< t.val)),
         (colourIdx (!b1.turn), 1 <<< ep.val)] b1.colours,
      squares := s3 }

/-- `revertNullMove` (move.c:411-423): restore hash, en-passant square and
fifty-move counter, zero the king attackers, flip the turn, pop the
history. -/
def revertNullMove (b : Board) (u : Undo) : Board :=
  { b with
    hash := u.hash, kingAttackers := 0, epSquare := u.epSquare
    fiftyMoveRule := u.fiftyMoveRule, turn := !b.turn
    history := b.history.dropLast }

/-- **C7.** For every value `v` in the legal score range `[-MATE, MATE]` and
every height `h` with `0 ≤ h ≤ MAX_HEIGHT`,
`valueFromTT (valueToTT v h) h = v`. -/
theorem valueFromTT_valueToTT (v h : Int) (hv₁ : -MATE ≤ v) (hv₂ : v ≤ MATE)
    (hh₁ : 0 ≤ h) (hh₂ : h ≤ MAX_HEIGHT) :
    valueFromTT (valueToTT v h) h = v := by
  simp only [valueToTT, valueFromTT, MATE, MAX_HEIGHT] at *
  split_ifs <;> omega

/-- Witness for **C7** at `v = 15990`, `h = 100` (a mate-in-10 score stored
at ply 100 and read back). -/
theorem valueFromTT_valueToTT_witness :
    -MATE ≤ (15990 : Int) ∧ (15990 : Int) ≤ MATE ∧ (0 : Int) ≤ 100 ∧
      (100 : Int) ≤ MAX_HEIGHT ∧ valueFromTT (valueToTT 15990 100) 100 = 15990 :=
  ⟨by decide, by decide, by decide, by decide,
    valueFromTT_valueToTT 15990 100 (by decide) (by decide) (by decide) (by decide)⟩

/-! ## Xor-update algebra

`applyMove` changes the piece and colour bitboards only through statements
`arr[i] ^= mask`; `revertMove` replays the same statements.  Replaying an
xor-update sequence is the identity. -/

/-- The combined mask xored into slot `k` by an xor-update sequence. -/
def xorMaskOf (l : List (Nat × Nat)) (k : Nat) : Nat :=
  (l.map (fun im => if im.1 = k then im.2 else 0)).foldr (fun a c => a ^^^ c) 0

theorem applyXorList_apply (l : List (Nat × Nat)) (p : Nat → Nat) (k : Nat) :
    applyXorList l p k = p k ^^^ xorMaskOf l k := by
  induction l generalizing p with
  | nil => simp [applyXorList, xorMaskOf]
  | cons im r ih =>
    simp only [applyXorList, List.foldl_cons, xorMaskOf, List.map_cons,
      List.foldr_cons] at *
    rw [ih]
    by_cases h : im.1 = k
    · subst h
      simp [Function.update_same, Nat.xor_assoc]
    · simp [Function.update_noteq (Ne.symm h), h, Nat.zero_xor]

theorem applyXorList_applyXorList (l : List (Nat × Nat)) (p : Nat → Nat) :
    applyXorList l (applyXorList l p) = p := by
  funext k
  rw [applyXorList_apply, applyXorList_apply, Nat.xor_assoc, Nat.xor_self,
    Nat.xor_zero]

/-- A 16-bit move's type field takes one of the four encoded values. -/
theorem MoveType_mem (m : Nat) :
    MoveType m = NORMAL_MOVE ∨ MoveType m = CASTLE_MOVE ∨
      MoveType m = ENPASS_MOVE ∨ MoveType m = PROMOTION_MOVE := by
  have hsplit : (3 <<< 12 : Nat) = 2 ^ 12 ||| 2 ^ 13 := by decide
  have htp : ∀ i, m &&& 2 ^ i = if m.testBit i then 2 ^ i else 0 := by
    intro i
    apply Nat.eq_of_testBit_eq
    intro j
    by_cases hj : j = i
    · subst hj
      by_cases hb : m.testBit j <;>
        simp [Nat.testBit_and, hb, Nat.testBit_two_pow_self]
    · by_cases hb : m.testBit i <;>
        simp [Nat.testBit_and, hb, Nat.testBit_two_pow_of_ne (Ne.symm hj),
          Nat.zero_testBit, Bool.and_comm]
  have h := Nat.and_or_distrib_left m (2 ^ 12) (2 ^ 13)
  unfold MoveType NORMAL_MOVE CASTLE_MOVE ENPASS_MOVE PROMOTION_MOVE
  rw [hsplit, h, htp 12, htp 13]
  by_cases h1 : m.testBit 12 <;> by_cases h2 : m.testBit 13 <;> simp [h1, h2]

/-- Round trip of a NORMAL move: no side conditions are needed. -/
theorem revert_apply_normal (ctx : Ctx Board) (b : Board) (m : Nat)
    (h : MoveType m = NORMAL_MOVE) :
    revertMove (applyMove ctx b m).1 m (applyMove ctx b m).2 = b := by
  apply Board.ext <;>
    simp only [applyMove, applyNormalMove, revertMove, h, if_true,
      NORMAL_MOVE, Nat.zero_shiftLeft, Function.update_same, Bool.not_not,
      List.dropLast_concat, reduceIte]
  · funext x
    rcases eq_or_ne x (sqFin (MoveTo m)) with rfl | hxt
    · simp
    · rcases eq_or_ne x (sqFin (MoveFrom m)) with rfl | hxf
      · simp [Function.update_noteq hxt]
      · simp [Function.update_noteq hxt, Function.update_noteq hxf]
  · funext x
    rw [applyXorList_apply, applyXorList_apply, Nat.xor_assoc, Nat.xor_self,
      Nat.xor_zero]
  · funext x
    rw [applyXorList_apply, applyXorList_apply, Nat.xor_assoc, Nat.xor_self,
      Nat.xor_zero]

/-- Round trip of a CASTLE move, provided the move is consistent with the
board: the four involved squares are distinct, the king stands on `from`,
the rook on its recovered origin square, and both destinations are empty
(all true of every generated castle). -/
theorem revert_apply_castle (ctx : Ctx Board) (b : Board) (m : Nat)
    (h : MoveType m = CASTLE_MOVE) (f t rF rT : Fin 64)
    (hf : f = sqFin (MoveFrom m)) (ht : t = sqFin (MoveTo m))
    (hrF : rF = sqFinI (castleGetRookFrom f.val t.val))
    (hrT : rT = sqFinI (castleGetRookTo f.val t.val))
    (hft : f ≠ t) (hfrF : f ≠ rF) (hfrT : f ≠ rT) (htrF : t ≠ rF)
    (htrT : t ≠ rT) (hrFrT : rF ≠ rT)
    (hKf : b.squares f = makePiece KING (colourIdx b.turn))
    (hRrF : b.squares rF = makePiece ROOK (colourIdx b.turn))
    (hEt : b.squares t = EMPTY) (hErT : b.squares rT = EMPTY) :
    revertMove (applyMove ctx b m).1 m (applyMove ctx b m).2 = b := by
  subst hf ht hrF hrT
  have hnN : CASTLE_MOVE ≠ NORMAL_MOVE := by decide
  apply Board.ext <;>
    simp only [applyMove, applyCastleMove, revertMove, h, hnN, if_true,
      if_false, ite_false, ite_true, eq_self_iff_true, Function.update_same,
      Bool.not_not, List.dropLast_concat]
  · funext x
    rcases eq_or_ne x (sqFinI (castleGetRookTo (sqFin (MoveFrom m)).val
        (sqFin (MoveTo m)).val)) with rfl | hxrT
    · simp [Function.update_same, hErT.symm]
    · rcases eq_or_ne x (sqFinI (castleGetRookFrom (sqFin (MoveFrom m)).val
          (sqFin (MoveTo m)).val)) with rfl | hxrF
      · simp [Function.update_noteq hxrT, Function.update_noteq hrFrT,
          Function.update_noteq htrF, Function.update_noteq hfrF,
          Function.update_noteq (Ne.symm htrT), Function.update_noteq
          (Ne.symm hfrT), Function.update_same, hRrF.symm]
      · rcases eq_or_ne x (sqFin (MoveTo m)) with rfl | hxt
        · simp [Function.update_noteq hxrT, Function.update_noteq hxrF,
            Function.update_noteq (Ne.symm hfrT), Function.update_noteq
            (Ne.symm hfrF), Function.update_noteq htrT, Function.update_noteq
            htrF, Function.update_same, hEt.symm]
        · rcases eq_or_ne x (sqFin (MoveFrom m)) with rfl | hxf
          · simp [Function.update_noteq hxrT, Function.update_noteq hxrF,
              Function.update_noteq hxt, Function.update_noteq htrT,
              Function.update_noteq htrF, Function.update_noteq hfrT,
              Function.update_noteq hfrF, Function.update_noteq hft,
              Function.update_same, hKf.symm]
          · simp [Function.update_noteq hxrT, Function.update_noteq hxrF,
              Function.update_noteq hxt, Function.update_noteq hxf,
              Function.update_noteq htrT, Function.update_noteq htrF,
              Function.update_noteq hfrT, Function.update_same]
  · funext x
    rw [applyXorList_apply, applyXorList_apply, Nat.xor_assoc, Nat.xor_self,
      Nat.xor_zero]
  · funext x
    rw [applyXorList_apply, applyXorList_apply, Nat.xor_assoc, Nat.xor_self,
      Nat.xor_zero]

/-- Round trip of an ENPASS move, provided the move is consistent with the
board: distinct squares, a mover pawn on `from`, an empty target and an
enemy pawn on the captured square (all true of every legal en-passant). -/
theorem revert_apply_enpass (ctx : Ctx Board) (b : Board) (m : Nat)
    (h : MoveType m = ENPASS_MOVE) (f t ep : Fin 64)
    (hf : f = sqFin (MoveFrom m)) (ht : t = sqFin (MoveTo m))
    (hep : ep = sqFinI ((t.val : Int) - 8 + (if b.turn then 16 else 0)))
    (hft : f ≠ t) (hfep : f ≠ ep) (htep : t ≠ ep)
    (hPf : b.squares f = makePiece PAWN (colourIdx b.turn))
    (hEt : b.squares t = EMPTY)
    (hPep : b.squares ep = makePiece PAWN (colourIdx (!b.turn))) :
    revertMove (applyMove ctx b m).1 m (applyMove ctx b m).2 = b := by
  subst hf ht hep
  have hnN : ENPASS_MOVE ≠ NORMAL_MOVE := by decide
  have hnC : ENPASS_MOVE ≠ CASTLE_MOVE := by decide
  have hnP : ENPASS_MOVE ≠ PROMOTION_MOVE := by decide
  apply Board.ext <;>
    simp only [applyMove, applyEnpassMove, revertMove, h, hnN, hnC, hnP, if_true,
      if_false, ite_false, ite_true, eq_self_iff_true, Function.update_same,
      Bool.not_not, List.dropLast_concat]
  · funext x
    rcases eq_or_ne x (sqFinI ((((sqFin (MoveTo m)).val : Int)) - 8 +
        (if b.turn then 16 else 0))) with rfl | hxep
    · simp [Function.update_same, hPep.symm]
    · rcases eq_or_ne x (sqFin (MoveTo m)) with rfl | hxt
      · simp [Function.update_noteq hxep, Function.update_noteq htep,
          Function.update_noteq (Ne.symm hfep), Function.update_same,
          hEt.symm]
      · rcases eq_or_ne x (sqFin (MoveFrom m)) with rfl | hxf
        · simp [Function.update_noteq hxep, Function.update_noteq hxt,
            Function.update_noteq htep, Function.update_noteq hfep,
            Function.update_noteq hft, Function.update_same, hPf.symm]
        · simp [Function.update_noteq hxep, Function.update_noteq hxt,
            Function.update_noteq hxf, Function.update_noteq htep,
            Function.update_same]
  · funext x
    rw [applyXorList_apply, applyXorList_apply, Nat.xor_assoc, Nat.xor_self,
      Nat.xor_zero]
  · funext x
    rw [applyXorList_apply, applyXorList_apply, Nat.xor_assoc, Nat.xor_self,
      Nat.xor_zero]

/-- Round trip of a PROMOTION move, provided a mover pawn stands on `from`
(true of every generated promotion). -/
theorem revert_apply_promotion (ctx : Ctx Board) (b : Board) (m : Nat)
    (h : MoveType m = PROMOTION_MOVE)
    (hPf : b.squares (sqFin (MoveFrom m)) = makePiece PAWN (colourIdx b.turn)) :
    revertMove (applyMove ctx b m).1 m (applyMove ctx b m).2 = b := by
  have hnN : PROMOTION_MOVE ≠ NORMAL_MOVE := by decide
  have hnC : PROMOTION_MOVE ≠ CASTLE_MOVE := by decide
  have hnE : PROMOTION_MOVE ≠ ENPASS_MOVE := by decide
  apply Board.ext <;>
    simp only [applyMove, applyPromotionMove, revertMove, h, hnN, hnC, hnE,
      if_true, if_false, ite_false, ite_true, eq_self_iff_true,
      Function.update_same, Bool.not_not, List.dropLast_concat]
  · funext x
    rcases eq_or_ne x (sqFin (MoveTo m)) with rfl | hxt
    · simp
    · rcases eq_or_ne x (sqFin (MoveFrom m)) with rfl | hxf
      · simp [Function.update_noteq hxt, Function.update_same, hPf.symm]
      · simp [Function.update_noteq hxt, Function.update_noteq hxf]
  · funext x
    rw [applyXorList_apply, applyXorList_apply, Nat.xor_assoc, Nat.xor_self,
      Nat.xor_zero]
  · funext x
    rw [applyXorList_apply, applyXorList_apply, Nat.xor_assoc, Nat.xor_self,
      Nat.xor_zero]

/-- A move is *consistent* with a board when the pieces its encoded type
presumes are in place: CASTLE presumes the four involved squares distinct,
king and rook on their origin squares and empty destinations; ENPASS
presumes three distinct squares, a mover pawn on `from`, an empty target
and an enemy pawn on the capture square; PROMOTION presumes a mover pawn
on `from`.  Every move produced by the generator on the position it was
generated for is consistent; NORMAL moves carry no condition. -/
def moveConsistent (b : Board) (m : Nat) : Prop :=
  (MoveType m = CASTLE_MOVE →
    sqFin (MoveFrom m) ≠ sqFin (MoveTo m) ∧
    sqFin (MoveFrom m) ≠
      sqFinI (castleGetRookFrom (sqFin (MoveFrom m)).val (sqFin (MoveTo m)).val) ∧
    sqFin (MoveFrom m) ≠
      sqFinI (castleGetRookTo (sqFin (MoveFrom m)).val (sqFin (MoveTo m)).val) ∧
    sqFin (MoveTo m) ≠
      sqFinI (castleGetRookFrom (sqFin (MoveFrom m)).val (sqFin (MoveTo m)).val) ∧
    sqFin (MoveTo m) ≠
      sqFinI (castleGetRookTo (sqFin (MoveFrom m)).val (sqFin (MoveTo m)).val) ∧
    sqFinI (castleGetRookFrom (sqFin (MoveFrom m)).val (sqFin (MoveTo m)).val) ≠
      sqFinI (castleGetRookTo (sqFin (MoveFrom m)).val (sqFin (MoveTo m)).val) ∧
    b.squares (sqFin (MoveFrom m)) = makePiece KING (colourIdx b.turn) ∧
    b.squares
        (sqFinI (castleGetRookFrom (sqFin (MoveFrom m)).val (sqFin (MoveTo m)).val))
      = makePiece ROOK (colourIdx b.turn) ∧
    b.squares (sqFin (MoveTo m)) = EMPTY ∧
    b.squares
        (sqFinI (castleGetRookTo (sqFin (MoveFrom m)).val (sqFin (MoveTo m)).val))
      = EMPTY) ∧
  (MoveType m = ENPASS_MOVE →
    sqFin (MoveFrom m) ≠ sqFin (MoveTo m) ∧
    sqFin (MoveFrom m) ≠
      sqFinI (((sqFin (MoveTo m)).val : Int) - 8 + (if b.turn then 16 else 0)) ∧
    sqFin (MoveTo m) ≠
      sqFinI (((sqFin (MoveTo m)).val : Int) - 8 + (if b.turn then 16 else 0)) ∧
    b.squares (sqFin (MoveFrom m)) = makePiece PAWN (colourIdx b.turn) ∧
    b.squares (sqFin (MoveTo m)) = EMPTY ∧
    b.squares
        (sqFinI (((sqFin (MoveTo m)).val : Int) - 8 + (if b.turn then 16 else 0)))
      = makePiece PAWN (colourIdx (!b.turn))) ∧
  (MoveType m = PROMOTION_MOVE →
    b.squares (sqFin (MoveFrom m)) = makePiece PAWN (colourIdx b.turn))

instance (b : Board) (m : Nat) : Decidable (moveConsistent b m) := by
  unfold moveConsistent
  infer_instance

/-- **C1** (amended: the claim as stated fails for moves whose encoded type
is inconsistent with the board, see the counterexample; consistency is the
only addition).  For every Zobrist/PSQT/attack context, every board and
every move consistent with it, `applyMove` followed by `revertMove` on the
same `Undo` restores every field of the `Board` — `hash`, `pkhash`,
`psqtmat`, `kingAttackers`, castle rights, `epSquare`, the fifty-move
counter, `squares[]` and the colour and piece bitboards. -/
theorem applyMove_revertMove_roundtrip (ctx : Ctx Board) (b : Board) (m : Nat)
    (hc : moveConsistent b m) :
    revertMove (applyMove ctx b m).1 m (applyMove ctx b m).2 = b := by
  rcases MoveType_mem m with h | h | h | h
  · exact revert_apply_normal ctx b m h
  · obtain ⟨h1, h2, h3, h4, h5, h6, h7, h8, h9, h10⟩ := hc.1 h
    exact revert_apply_castle ctx b m h _ _ _ _ rfl rfl rfl rfl
      h1 h2 h3 h4 h5 h6 h7 h8 h9 h10
  · obtain ⟨h1, h2, h3, h4, h5, h6⟩ := hc.2.1 h
    exact revert_apply_enpass ctx b m h _ _ _ rfl rfl rfl h1 h2 h3 h4 h5 h6
  · exact revert_apply_promotion ctx b m h (hc.2.2 h)

/-! ## The Board invariants (spec §3), recomputed from scratch -/

/-- The union of the six real piece bitboards. -/
def piecesUnion (b : Board) : Nat :=
  b.pieces PAWN ||| b.pieces KNIGHT ||| b.pieces BISHOP ||| b.pieces ROOK
    ||| b.pieces QUEEN ||| b.pieces KING

/-- The occupancy bitboard. -/
def occupied (b : Board) : Nat := b.colours 0 ||| b.colours 1

/-- The full-position Zobrist hash recomputed from scratch: XOR of the
piece-square keys over occupied squares, the turn key for Black, the
castle-rights key, and the en-passant file key. -/
def recomputeHash (ctx : Ctx Board) (b : Board) : Nat :=
  ((List.finRange 64).foldl
      (fun acc sq => if b.squares sq ≠ EMPTY then
                       acc ^^^ ctx.zobristKeys (b.squares sq) sq
                     else acc) 0)
    ^^^ (if b.turn then ctx.zobristTurnKey else 0)
    ^^^ ctx.zobristCastleKeys b.castleRights
    ^^^ (if b.epSquare ≠ -1 then ctx.zobristEnpassKeys (fileOf b.epSquare.toNat)
         else 0)

/-- The pawn-king hash recomputed from scratch. -/
def recomputePkHash (ctx : Ctx Board) (b : Board) : Nat :=
  (List.finRange 64).foldl
    (fun acc sq => if pieceType (b.squares sq) = PAWN ∨
                      pieceType (b.squares sq) = KING then
                     acc ^^^ ctx.zobristKeys (b.squares sq) sq
                   else acc) 0

/-- The piece-square material score recomputed from scratch. -/
def recomputePsqt (ctx : Ctx Board) (b : Board) : Int :=
  (List.finRange 64).foldl
    (fun acc sq => if b.squares sq ≠ EMPTY then acc + ctx.psqt (b.squares sq) sq
                   else acc) 0

/-- The Board invariants of spec §3: disjoint colour boards whose union is
the union of the piece boards; `squares[]` consistent with the bitboards;
`hash`, `pkhash` and `psqtmat` equal to their from-scratch recomputations;
exactly one king per side. -/
def boardInvariant (ctx : Ctx Board) (b : Board) : Prop :=
  b.colours 0 &&& b.colours 1 = 0 ∧
  occupied b = piecesUnion b ∧
  (∀ sq : Fin 64, (b.squares sq = EMPTY ↔ ¬ (occupied b).testBit sq.val)) ∧
  (∀ sq : Fin 64, b.squares sq ≠ EMPTY →
      (b.pieces (pieceType (b.squares sq))).testBit sq.val ∧
      (b.colours (pieceColour (b.squares sq))).testBit sq.val) ∧
  b.hash = recomputeHash ctx b ∧
  b.pkhash = recomputePkHash ctx b ∧
  b.psqtmat = recomputePsqt ctx b ∧
  (b.pieces KING &&& b.colours 0 ≠ 0 ∧
    (b.pieces KING &&& b.colours 0) &&& ((b.pieces KING &&& b.colours 0) - 1) = 0) ∧
  (b.pieces KING &&& b.colours 1 ≠ 0 ∧
    (b.pieces KING &&& b.colours 1) &&& ((b.pieces KING &&& b.colours 1) - 1) = 0)

/-- A context whose external tables are all zero — one concrete admissible
choice of the out-of-snapshot tables, used for concrete evaluations. -/
def ctx0 : Ctx Board :=
  { zobristKeys := fun _ _ => 0, zobristTurnKey := 0,
    zobristEnpassKeys := fun _ => 0, zobristCastleKeys := fun _ => 0,
    psqt := fun _ _ => 0, attackersToKingSquare := fun _ => 0,
    adjacentFilesMasks := fun _ => 0 }

/-- A concrete invariant-satisfying board: white king on square 4, black
king on square 5, white rook on square 6, White to move. -/
def cb : Board :=
  { squares := fun sq => if sq.val = 4 then 20 else if sq.val = 5 then 21
                         else if sq.val = 6 then 12 else 26,
    pieces := fun ty => if ty = 5 then 48 else if ty = 3 then 64 else 0,
    colours := fun c => if c = 0 then 80 else if c = 1 then 32 else 0,
    turn := false, castleRights := 0, epSquare := -1, fiftyMoveRule := 0,
    hash := 0, pkhash := 0, psqtmat := 0, kingAttackers := 0, history := [] }

/-- **C1, counterexample.**  The claim quantifies over *every* move: on the
invariant-satisfying board `cb`, the (never generated, but encodable) move
12742 — a PROMOTION with `from` = square 6, where a white *rook* stands —
breaks the round trip: `revertMove` rewrites square 6 to a white pawn, so
the board is not restored. -/
theorem applyMove_revertMove_roundtrip_cex :
    boardInvariant ctx0 cb ∧
      revertMove (applyMove ctx0 cb 12742).1 12742 (applyMove ctx0 cb 12742).2
        ≠ cb := by
  constructor
  · constructor
    · decide
    constructor
    · decide
    constructor
    · decide
    constructor
    · decide
    constructor
    · decide
    constructor
    · decide
    constructor
    · decide
    constructor
    · decide
    · decide
  · intro heq
    have h6 := congrArg (fun bd : Board => bd.squares ⟨6, by omega⟩) heq
    revert h6
    decide

/-- Witness for **C1** (amended): the NORMAL move 772 (square 4 to square
12) on `cb` is consistent, and the round trip restores the board. -/
theorem applyMove_revertMove_roundtrip_witness :
    moveConsistent cb 772 ∧
      revertMove (applyMove ctx0 cb 772).1 772 (applyMove ctx0 cb 772).2 = cb :=
  ⟨by decide, applyMove_revertMove_roundtrip ctx0 cb 772 (by decide)⟩

/-- **C6.**  After `applyMove` the fifty-move counter is 0 for a capture, a
pawn move, an en-passant capture or a promotion, and is the pre-move
counter plus one for a non-pawn non-capture NORMAL move or a CASTLE move;
`applyNullMove` likewise increments it by one.  (applyMove increments
unconditionally at move.c:96; the per-type functions reset.) -/
theorem fifty_after_apply (ctx : Ctx Board) (b : Board) (m : Nat) :
    ((applyMove ctx b m).1.fiftyMoveRule =
      if MoveType m = NORMAL_MOVE then
        (if pieceType (b.squares (sqFin (MoveFrom m))) = PAWN ∨
            b.squares (sqFin (MoveTo m)) ≠ EMPTY then 0
         else b.fiftyMoveRule + 1)
      else if MoveType m = CASTLE_MOVE then b.fiftyMoveRule + 1
      else 0) ∧
    (applyNullMove ctx b).1.fiftyMoveRule = b.fiftyMoveRule + 1 := by
  refine ⟨?_, by simp [applyNullMove]⟩
  have d1 : CASTLE_MOVE ≠ NORMAL_MOVE := by decide
  have d2 : ENPASS_MOVE ≠ NORMAL_MOVE := by decide
  have d3 : ENPASS_MOVE ≠ CASTLE_MOVE := by decide
  by_cases h1 : MoveType m = NORMAL_MOVE
  · simp [applyMove, applyNormalMove, h1]
  by_cases h2 : MoveType m = CASTLE_MOVE
  · simp [applyMove, applyCastleMove, h1, h2, d1]
  by_cases h3 : MoveType m = ENPASS_MOVE
  · simp [applyMove, applyEnpassMove, h1, h2, h3, d2, d3]
  · simp [applyMove, applyPromotionMove, h1, h2, h3]

/-! ## The null-move-pruning guard (search.c:403-427, claim C3)

Step 10 of `search` enters null-move pruning only under
`board->history[board->numMoves-1] != NULL_MOVE` — it compares the
*previous position's 64-bit Zobrist hash* (that is what `history[]`
stores, move.c:93 and :309) against the 16-bit move sentinel. -/

/-- The history conjunct of the null-move guard (search.c:412), true when
the null-move step may be entered.  `history[numMoves-1]` is the last
pushed hash; the `getLastD 0` default models the out-of-bounds read the C
performs when `numMoves = 0`. -/
def nullMoveGuardHist (b : Board) : Bool :=
  decide (b.history.getLastD 0 ≠ NULL_MOVE)

/-- An otherwise empty test board whose Zobrist hash is 42. -/
def nullb : Board :=
  { squares := fun _ => 26, pieces := fun _ => 0, colours := fun _ => 0,
    turn := false, castleRights := 0, epSquare := -1, fiftyMoveRule := 0,
    hash := 42, pkhash := 0, psqtmat := 0, kingAttackers := 0, history := [] }

/-- **C3.**  The guard does *not* exclude positions reached by
`applyNullMove`: after a null move from `nullb` (hash 42), the guard
compares that hash with `NULL_MOVE = 11` and evaluates true, so the search
would attempt null-move pruning directly after a null move.  (The code
compares a hash ring entry against a move sentinel; the intended check is
against the move stack that `apply` maintains, move.c:56-63.) -/
theorem nullMoveGuardHist_after_null :
    nullMoveGuardHist (applyNullMove ctx0 nullb).1 = true := by decide

/-! ## The board of board.c

`src/board.c` belongs to a later engine generation: its board carries
`castleRooks`/`castleMasks` (Fischer-random capable) and names the
fifty-move counter `halfMoveCounter`. -/

structure BoardB where
  squares : Fin 64 → Nat
  pieces : Nat → Nat
  colours : Nat → Nat
  turn : Bool
  castleRooks : Nat
  castleMasks : Fin 64 → Nat
  epSquare : Int
  halfMoveCounter : Nat
  fullMoveCounter : Nat
  hash : Nat
  pkhash : Nat
  psqtmat : Int
  kingAttackers : Nat
  history : List Nat
  chess960 : Bool

/-- `several(bb)`: more than one bit set.  Modelled from the spec
(bit primitives; bitboards.c is not in the snapshot): standard
`bb & (bb - 1)`. -/
def several (bb : Nat) : Bool := decide (bb &&& (bb - 1) ≠ 0)

/-- `popcount`, structurally recursive on a fuel bounded by the number
itself so that the kernel can evaluate it. -/
def popcountAux : Nat → Nat → Nat
  | 0, _ => 0
  | fuel + 1, n => if n = 0 then 0 else n % 2 + popcountAux fuel (n / 2)

def popcount (n : Nat) : Nat := popcountAux n n

/-- `drawnByFiftyMoveRule` (board.c:341-347): `halfMoveCounter > 99`. -/
def drawnByFiftyMoveRule (b : BoardB) : Bool := decide (b.halfMoveCounter > 99)

/-- The loop of `drawnByRepetition` (board.c:349-368), walking the hash
history backwards two plies at a time from `numMoves - 2`, stopping at the
last irreversible move. -/
def repLoop (b : BoardB) (height : Nat) (reps : Nat) (i : Int) : Bool :=
  if i < 0 then false
  else if i < (b.history.length : Int) - (b.halfMoveCounter : Int) then false
  else if b.history.getD i.toNat 0 = b.hash ∧
          (i > (b.history.length : Int) - (height : Int) ∨ reps + 1 = 2) then
    true
  else if b.history.getD i.toNat 0 = b.hash then repLoop b height (reps + 1) (i - 2)
  else repLoop b height reps (i - 2)
termination_by (i + 2).toNat
decreasing_by
  all_goals omega

/-- `drawnByRepetition` (board.c:349-368). -/
def drawnByRepetition (b : BoardB) (height : Nat) : Bool :=
  repLoop b height 0 ((b.history.length : Int) - 2)

/-- `drawnByInsufficientMaterial` (board.c:370-403). -/
def drawnByInsufficientMaterial (b : BoardB) : Bool :=
  if (b.pieces PAWN ||| b.pieces ROOK ||| b.pieces QUEEN) ≠ 0 then false
  else if b.pieces KING = (b.colours 0 ||| b.colours 1) then true
  else if (b.colours 0 &&& b.pieces KING) = b.colours 0 ∧
          (several (b.pieces KNIGHT ||| b.pieces BISHOP) = false ∨
            (b.pieces BISHOP = 0 ∧ popcount (b.pieces KNIGHT) ≤ 2)) then true
  else if (b.colours 1 &&& b.pieces KING) = b.colours 1 ∧
          (several (b.pieces KNIGHT ||| b.pieces BISHOP) = false ∨
            (b.pieces BISHOP = 0 ∧ popcount (b.pieces KNIGHT) ≤ 2)) then true
  else false

/-- `boardIsDrawn` (board.c:333-339). -/
def boardIsDrawn (b : BoardB) (height : Nat) : Bool :=
  drawnByFiftyMoveRule b || drawnByRepetition b height
    || drawnByInsufficientMaterial b

/-! ## The fifty-move gate of search (search.c:296-298, claim C2)

Step 3 of `search` returns the draw score when `board->fiftyMoveRule >
100` — note the strict comparison against 100, versus `> 99` in
`drawnByFiftyMoveRule` above. -/

/-- The fifty-move check of `search`: `some 0` (an immediate draw-score
return) exactly when the gate of search.c:297 fires, `none` when the
search continues past step 3. -/
def searchFiftyCheck (b : Board) : Option Int :=
  if b.fiftyMoveRule > 100 then some 0 else none

/-- A search-side board with the fifty-move counter at exactly 100. -/
def fifty100b : Board := { nullb with fiftyMoveRule := 100 }

/-- **C2, counterexample.**  At a half-move counter of exactly 100 the
search's fifty-move gate (`fiftyMoveRule > 100`, search.c:297) does *not*
fire, so the search does not return the draw score 0 from step 3. -/
theorem searchFiftyCheck_at_100_cex :
    fifty100b.fiftyMoveRule = 100 ∧ searchFiftyCheck fifty100b ≠ some 0 := by
  decide

/-- **C2** (amended).  The two fifty-move tests disagree at exactly 100:
`drawnByFiftyMoveRule` (board.c:346, `> 99`) already reports a draw there,
while the search gate (search.c:297, `> 100`) returns the draw score 0
only for counters strictly above 100. -/
theorem fiftyMove_thresholds (b : Board) (bb : BoardB)
    (hb : b.fiftyMoveRule = 100) (hbb : bb.halfMoveCounter = 100) :
    searchFiftyCheck b = none ∧ drawnByFiftyMoveRule bb = true ∧
      ∀ b' : Board, 100 < b'.fiftyMoveRule → searchFiftyCheck b' = some 0 := by
  refine ⟨?_, ?_, ?_⟩
  · simp [searchFiftyCheck, hb]
  · simp [drawnByFiftyMoveRule, hbb]
  · intro b' h
    simp [searchFiftyCheck, h]

/-- A board.c-side board with the half-move counter at exactly 100. -/
def hb100 : BoardB :=
  { squares := fun _ => 26, pieces := fun _ => 0, colours := fun _ => 0,
    turn := false, castleRooks := 0, castleMasks := fun _ => 0, epSquare := -1,
    halfMoveCounter := 100, fullMoveCounter := 1, hash := 0, pkhash := 0,
    psqtmat := 0, kingAttackers := 0, history := [], chess960 := false }

/-- Witness for **C2** (amended) at `fifty100b` / `hb100`. -/
theorem fiftyMove_thresholds_witness :
    fifty100b.fiftyMoveRule = 100 ∧ hb100.halfMoveCounter = 100 ∧
      (searchFiftyCheck fifty100b = none ∧
        drawnByFiftyMoveRule hb100 = true ∧
        ∀ b' : Board, 100 < b'.fiftyMoveRule → searchFiftyCheck b' = some 0) :=
  ⟨by decide, by decide, fiftyMove_thresholds fifty100b hb100 rfl rfl⟩

/-- **C9.**  `boardIsDrawn` also reports draws by insufficient material:
`drawnByInsufficientMaterial` implies `boardIsDrawn`; it is false whenever
any pawn, rook or queen is on the board; true for bare kings; and true
when one side has a bare king while in total at most a single minor piece,
or at most two knights and no bishop, remain. -/
theorem insufficientMaterial_spec (b : BoardB) (height : Nat) :
    (drawnByInsufficientMaterial b = true → boardIsDrawn b height = true) ∧
    ((b.pieces PAWN ||| b.pieces ROOK ||| b.pieces QUEEN) ≠ 0 →
      drawnByInsufficientMaterial b = false) ∧
    ((b.pieces PAWN ||| b.pieces ROOK ||| b.pieces QUEEN) = 0 →
      b.pieces KING = (b.colours 0 ||| b.colours 1) →
      drawnByInsufficientMaterial b = true) ∧
    ((b.pieces PAWN ||| b.pieces ROOK ||| b.pieces QUEEN) = 0 →
      (b.colours 0 &&& b.pieces KING) = b.colours 0 →
      (several (b.pieces KNIGHT ||| b.pieces BISHOP) = false ∨
        (b.pieces BISHOP = 0 ∧ popcount (b.pieces KNIGHT) ≤ 2)) →
      drawnByInsufficientMaterial b = true) ∧
    ((b.pieces PAWN ||| b.pieces ROOK ||| b.pieces QUEEN) = 0 →
      (b.colours 1 &&& b.pieces KING) = b.colours 1 →
      (several (b.pieces KNIGHT ||| b.pieces BISHOP) = false ∨
        (b.pieces BISHOP = 0 ∧ popcount (b.pieces KNIGHT) ≤ 2)) →
      drawnByInsufficientMaterial b = true) := by
  refine ⟨?_, ?_, ?_, ?_, ?_⟩
  · intro h
    simp [boardIsDrawn, h]
  · intro h
    simp [drawnByInsufficientMaterial, h]
  · intro h1 h2
    simp [drawnByInsufficientMaterial, h1, h2]
  · intro h1 h2 h3
    simp only [drawnByInsufficientMaterial, h1, ne_eq,
      not_true_eq_false, if_false, reduceIte]
    split_ifs with hKvK hW hB
    · rfl
    · rfl
    · rfl
    · exact absurd ⟨h2, h3⟩ hW
  · intro h1 h2 h3
    simp only [drawnByInsufficientMaterial, h1, ne_eq,
      not_true_eq_false, if_false, reduceIte]
    split_ifs with hKvK hW hB
    · rfl
    · rfl
    · rfl
    · exact absurd ⟨h2, h3⟩ hB

/-- Witness for **C9**: a king-and-two-knights versus bare-king position
(white king bit 4, black king bit 60, black knights bits 20 and 30). -/
def kvknnb : BoardB :=
  { squares := fun sq => if sq.val = 4 then 20 else if sq.val = 60 then 21
                         else if sq.val = 20 ∨ sq.val = 30 then 5 else 26,
    pieces := fun ty => if ty = 5 then 2 ^ 4 + 2 ^ 60
                        else if ty = 1 then 2 ^ 20 + 2 ^ 30 else 0,
    colours := fun c => if c = 0 then 2 ^ 4
                        else if c = 1 then 2 ^ 60 + 2 ^ 20 + 2 ^ 30 else 0,
    turn := false, castleRooks := 0, castleMasks := fun _ => 0, epSquare := -1,
    halfMoveCounter := 0, fullMoveCounter := 1, hash := 0, pkhash := 0,
    psqtmat := 0, kingAttackers := 0, history := [], chess960 := false }

theorem insufficientMaterial_spec_witness :
    (kvknnb.pieces PAWN ||| kvknnb.pieces ROOK ||| kvknnb.pieces QUEEN) = 0 ∧
    (kvknnb.colours 0 &&& kvknnb.pieces KING) = kvknnb.colours 0 ∧
    (several (kvknnb.pieces KNIGHT ||| kvknnb.pieces BISHOP) = false ∨
      (kvknnb.pieces BISHOP = 0 ∧ popcount (kvknnb.pieces KNIGHT) ≤ 2)) ∧
    drawnByInsufficientMaterial kvknnb = true ∧
    boardIsDrawn kvknnb 0 = true :=
  ⟨by decide, by decide, Or.inr (by decide),
    ((insufficientMaterial_spec kvknnb 0).2.2.2.1 (by decide) (by decide)
      (Or.inr (by decide))),
    (insufficientMaterial_spec kvknnb 0).1
      ((insufficientMaterial_spec kvknnb 0).2.2.2.1 (by decide) (by decide)
        (Or.inr (by decide)))⟩

/-! ## Transposition-table store (transposition.c:113-152, claim C4)

An entry is `{value, depth, info = age·4 + bound, bestMove, hash16}`; a
bucket holds four entries.  The store loop walks the bucket in index order
and *breaks* at the first entry that is empty (`TransEntryType = 0`) — or
that matches `hash16`, whichever index comes first; only if neither occurs
does the running minimum of `depth − 2·(64 + generation − age)` decide. -/

structure TransEntry where
  value : Int
  depth : Nat
  info : Nat
  bestMove : Nat
  hash16 : Nat
deriving DecidableEq

/-- `TransEntryType(e) = info & 0b11` (the bound kind; 0 = unused). -/
def TransEntryType (e : TransEntry) : Nat := e.info &&& 3

/-- `TransEntryAge(e) = info >> 2`. -/
def TransEntryAge (e : TransEntry) : Nat := e.info >>> 2

/-- The replacement metric `depth - (64 + generation - age) * 2` of
transposition.c:142-143, in exact `int` arithmetic. -/
def replaceScore (gen : Nat) (e : TransEntry) : Int :=
  (e.depth : Int) - ((64 : Int) + (gen : Int) - (TransEntryAge e : Int)) * 2

/-- The selection loop of `storeTranspositionEntry` (transposition.c:
126-145): `replace` starts at entry 0; the loop breaks at an unused entry,
breaks at a `hash16` match, and otherwise keeps the entry minimising the
replacement metric (later indices win ties). -/
def chooseLoop (gen h16 : Nat) (e : Fin 4 → TransEntry) :
    List (Fin 4) → Fin 4 → Fin 4
  | [], replace => replace
  | i :: rest, replace =>
    if TransEntryType (e i) = 0 then i
    else if (e i).hash16 = h16 then i
    else if replaceScore gen (e replace) ≥ replaceScore gen (e i) then
      chooseLoop gen h16 e rest i
    else chooseLoop gen h16 e rest replace

def chooseReplace (gen h16 : Nat) (e : Fin 4 → TransEntry) : Fin 4 :=
  chooseLoop gen h16 e [0, 1, 2, 3] 0

/-- `storeTranspositionEntry` restricted to the addressed bucket (the
bucket index `hash & (numBuckets - 1)` merely selects the bucket; the
claim is about the choice within it).  `hash16 = hash >> 48` on a 64-bit
hash. -/
def storeTranspositionEntry (gen depth ty : Nat) (value : Int)
    (bestMove hash : Nat) (e : Fin 4 → TransEntry) : Fin 4 → TransEntry :=
  Function.update e (chooseReplace gen ((hash >>> 48) &&& 65535) e)
    { value := value, depth := depth, info := (gen <<< 2) ||| ty,
      bestMove := bestMove, hash16 := (hash >>> 48) &&& 65535 }

/-- A slot the loop breaks at: unused, or fingerprint match. -/
def slotUsable (h16 : Nat) (e : Fin 4 → TransEntry) (j : Fin 4) : Prop :=
  TransEntryType (e j) = 0 ∨ (e j).hash16 = h16

instance (h16 : Nat) (e : Fin 4 → TransEntry) (j : Fin 4) :
    Decidable (slotUsable h16 e j) := by
  unfold slotUsable
  infer_instance

/-- One step of the selection loop: break at an empty-or-matching slot,
else keep the metric minimiser (later index on ties). -/
theorem chooseLoop_cons (gen h16 : Nat) (e : Fin 4 → TransEntry) (i : Fin 4)
    (rest : List (Fin 4)) (replace : Fin 4) :
    chooseLoop gen h16 e (i :: rest) replace =
      if slotUsable h16 e i then i
      else if replaceScore gen (e replace) ≥ replaceScore gen (e i) then
        chooseLoop gen h16 e rest i
      else chooseLoop gen h16 e rest replace := by
  by_cases h1 : TransEntryType (e i) = 0
  · simp [chooseLoop, h1, slotUsable]
  · by_cases h2 : (e i).hash16 = h16
    · simp [chooseLoop, h1, h2, slotUsable]
    · simp [chooseLoop, h1, h2, slotUsable]

/-- `chooseLoop` on the empty suffix returns the running minimiser. -/
theorem chooseLoop_nil (gen h16 : Nat) (e : Fin 4 → TransEntry)
    (replace : Fin 4) : chooseLoop gen h16 e [] replace = replace := rfl

/-- `s i` is the minimum of a function on `Fin 4` when it is below all four
values. -/
theorem minFin4 {s : Fin 4 → Int} {i : Fin 4} (h0 : s i ≤ s 0)
    (h1 : s i ≤ s 1) (h2 : s i ≤ s 2) (h3 : s i ≤ s 3) : ∀ j, s i ≤ s j := by
  intro j
  fin_cases j
  · exact h0
  · exact h1
  · exact h2
  · exact h3

/-- The selection loop picks the *first* empty-or-matching slot in index
order, else a metric minimiser. -/
theorem chooseReplace_spec (gen h16 : Nat) (e : Fin 4 → TransEntry) :
    ((∃ j, slotUsable h16 e j) →
      slotUsable h16 e (chooseReplace gen h16 e) ∧
        ∀ k, k < chooseReplace gen h16 e → ¬ slotUsable h16 e k) ∧
    ((∀ j, ¬ slotUsable h16 e j) →
      ∀ j, replaceScore gen (e (chooseReplace gen h16 e)) ≤
        replaceScore gen (e j)) := by
  by_cases u0 : slotUsable h16 e 0
  · have hcr : chooseReplace gen h16 e = 0 := by
      simp [chooseReplace, chooseLoop_cons, u0]
    rw [hcr]
    refine ⟨fun _ => ⟨u0, fun k hk => ?_⟩, fun hnone => absurd u0 (hnone 0)⟩
    exact absurd hk (Nat.not_lt_zero k.val)
  by_cases u1 : slotUsable h16 e 1
  · have hcr : chooseReplace gen h16 e = 1 := by
      simp [chooseReplace, chooseLoop_cons, u0, u1]
    rw [hcr]
    refine ⟨fun _ => ⟨u1, fun k hk => ?_⟩, fun hnone => absurd u1 (hnone 1)⟩
    rcases k with ⟨kv, hk4⟩
    have hkv : kv < 1 := hk
    interval_cases kv
    · exact u0
  by_cases u2 : slotUsable h16 e 2
  · have hcr : chooseReplace gen h16 e = 2 := by
      simp [chooseReplace, chooseLoop_cons, u0, u1, u2]
    rw [hcr]
    refine ⟨fun _ => ⟨u2, fun k hk => ?_⟩, fun hnone => absurd u2 (hnone 2)⟩
    rcases k with ⟨kv, hk4⟩
    have hkv : kv < 2 := hk
    interval_cases kv
    · exact u0
    · exact u1
  by_cases u3 : slotUsable h16 e 3
  · have hcr : chooseReplace gen h16 e = 3 := by
      simp [chooseReplace, chooseLoop_cons, u0, u1, u2, u3]
    rw [hcr]
    refine ⟨fun _ => ⟨u3, fun k hk => ?_⟩, fun hnone => absurd u3 (hnone 3)⟩
    rcases k with ⟨kv, hk4⟩
    have hkv : kv < 3 := hk
    interval_cases kv
    · exact u0
    · exact u1
    · exact u2
  · refine ⟨fun hex => ?_, fun _ => ?_⟩
    · rcases hex with ⟨jx, hjx⟩
      rcases jx with ⟨jv, hj4⟩
      interval_cases jv
      · exact absurd hjx u0
      · exact absurd hjx u1
      · exact absurd hjx u2
      · exact absurd hjx u3
    · by_cases c1 : replaceScore gen (e 0) ≥ replaceScore gen (e 1)
      · by_cases c2 : replaceScore gen (e 1) ≥ replaceScore gen (e 2)
        · by_cases c3 : replaceScore gen (e 2) ≥ replaceScore gen (e 3)
          · have hcr : chooseReplace gen h16 e = 3 := by
              simp [chooseReplace, chooseLoop_cons, chooseLoop_nil, u0, u1,
                u2, u3, c1, c2, c3]
            rw [hcr]
            exact minFin4 (by omega) (by omega) (by omega) le_rfl
          · have hcr : chooseReplace gen h16 e = 2 := by
              simp [chooseReplace, chooseLoop_cons, chooseLoop_nil, u0, u1,
                u2, u3, c1, c2, c3]
            rw [hcr]
            exact minFin4 (by omega) (by omega) le_rfl (by omega)
        · by_cases c3 : replaceScore gen (e 1) ≥ replaceScore gen (e 3)
          · have hcr : chooseReplace gen h16 e = 3 := by
              simp [chooseReplace, chooseLoop_cons, chooseLoop_nil, u0, u1,
                u2, u3, c1, c2, c3]
            rw [hcr]
            exact minFin4 (by omega) (by omega) (by omega) le_rfl
          · have hcr : chooseReplace gen h16 e = 1 := by
              simp [chooseReplace, chooseLoop_cons, chooseLoop_nil, u0, u1,
                u2, u3, c1, c2, c3]
            rw [hcr]
            exact minFin4 (by omega) le_rfl (by omega) (by omega)
      · by_cases c2 : replaceScore gen (e 0) ≥ replaceScore gen (e 2)
        · by_cases c3 : replaceScore gen (e 2) ≥ replaceScore gen (e 3)
          · have hcr : chooseReplace gen h16 e = 3 := by
              simp [chooseReplace, chooseLoop_cons, chooseLoop_nil, u0, u1,
                u2, u3, c1, c2, c3]
            rw [hcr]
            exact minFin4 (by omega) (by omega) (by omega) le_rfl
          · have hcr : chooseReplace gen h16 e = 2 := by
              simp [chooseReplace, chooseLoop_cons, chooseLoop_nil, u0, u1,
                u2, u3, c1, c2, c3]
            rw [hcr]
            exact minFin4 (by omega) (by omega) le_rfl (by omega)
        · by_cases c3 : replaceScore gen (e 0) ≥ replaceScore gen (e 3)
          · have hcr : chooseReplace gen h16 e = 3 := by
              simp [chooseReplace, chooseLoop_cons, chooseLoop_nil, u0, u1,
                u2, u3, c1, c2, c3]
            rw [hcr]
            exact minFin4 (by omega) (by omega) (by omega) le_rfl
          · have hcr : chooseReplace gen h16 e = 0 := by
              simp [chooseReplace, chooseLoop_cons, chooseLoop_nil, u0, u1,
                u2, u3, c1, c2, c3]
            rw [hcr]
            exact minFin4 le_rfl (by omega) (by omega) (by omega)

/-- **C4** (amended).  `storeTranspositionEntry` writes the slot selected
by the loop, and that slot is: the *first* slot in index order that is
empty *or* has a matching `hash16` (an earlier match beats a later empty
slot — not "empty first, then match" as claimed); only when no slot is
empty or matching, a slot minimising `depth − 2·(64 + generation −
entryAge)`. -/
theorem storeTranspositionEntry_policy (gen d ty : Nat) (v : Int)
    (bm hash : Nat) (e : Fin 4 → TransEntry) :
    (storeTranspositionEntry gen d ty v bm hash e)
        (chooseReplace gen ((hash >>> 48) &&& 65535) e) =
      { value := v, depth := d, info := (gen <<< 2) ||| ty, bestMove := bm,
        hash16 := (hash >>> 48) &&& 65535 } ∧
    (∀ j, j ≠ chooseReplace gen ((hash >>> 48) &&& 65535) e →
      (storeTranspositionEntry gen d ty v bm hash e) j = e j) ∧
    ((∃ j, slotUsable ((hash >>> 48) &&& 65535) e j) →
      slotUsable ((hash >>> 48) &&& 65535) e
          (chooseReplace gen ((hash >>> 48) &&& 65535) e) ∧
        ∀ k, k < chooseReplace gen ((hash >>> 48) &&& 65535) e →
          ¬ slotUsable ((hash >>> 48) &&& 65535) e k) ∧
    ((∀ j, ¬ slotUsable ((hash >>> 48) &&& 65535) e j) →
      ∀ j, replaceScore gen
          (e (chooseReplace gen ((hash >>> 48) &&& 65535) e)) ≤
        replaceScore gen (e j)) :=
  ⟨Function.update_same _ _ _,
   fun _ hj => Function.update_noteq hj _ _,
   (chooseReplace_spec gen ((hash >>> 48) &&& 65535) e).1,
   (chooseReplace_spec gen ((hash >>> 48) &&& 65535) e).2⟩

/-- A bucket whose slot 0 carries the probed fingerprint (5) and is in
use, while slot 1 is empty (`info = 0`). -/
def tb : Fin 4 → TransEntry :=
  fun j => if j = 0 then
             { value := 0, depth := 3, info := 1, bestMove := 0, hash16 := 5 }
           else if j = 1 then
             { value := 0, depth := 0, info := 0, bestMove := 0, hash16 := 0 }
           else
             { value := 0, depth := 7, info := 1, bestMove := 0, hash16 := 9 }

/-- **C4, counterexample.**  Storing into `tb` under hash `5 <<< 48`
(fingerprint 5): an empty slot exists (slot 1), yet the store overwrites
slot 0 — the matching slot at a lower index — and leaves the empty slot
untouched, refuting the claimed "empty before matching" preference
order. -/
theorem storeTranspositionEntry_policy_cex :
    TransEntryType (tb 1) = 0 ∧
    TransEntryType (tb 0) ≠ 0 ∧
    (tb 0).hash16 = ((5 <<< 48 : Nat) >>> 48) &&& 65535 ∧
    chooseReplace 1 (((5 <<< 48 : Nat) >>> 48) &&& 65535) tb = 0 ∧
    storeTranspositionEntry 1 2 1 7 9 (5 <<< 48) tb 1 = tb 1 ∧
    storeTranspositionEntry 1 2 1 7 9 (5 <<< 48) tb 0 ≠ tb 0 := by
  decide

/-- Witness for **C4** (amended) on the bucket `tb`: a usable slot exists,
and the store picks the least usable index (slot 0). -/
theorem storeTranspositionEntry_policy_witness :
    (∃ j, slotUsable (((5 <<< 48 : Nat) >>> 48) &&& 65535) tb j) ∧
    (slotUsable (((5 <<< 48 : Nat) >>> 48) &&& 65535) tb
        (chooseReplace 1 (((5 <<< 48 : Nat) >>> 48) &&& 65535) tb) ∧
      ∀ k, k < chooseReplace 1 (((5 <<< 48 : Nat) >>> 48) &&& 65535) tb →
        ¬ slotUsable (((5 <<< 48 : Nat) >>> 48) &&& 65535) tb k) :=
  ⟨⟨1, by decide⟩,
    (storeTranspositionEntry_policy 1 2 1 7 9 (5 <<< 48) tb).2.2.1
      ⟨1, by decide⟩⟩

/-! ## End-of-depth time management (search.c:142-151, claim C8)

Inside `iterativeDeepening`, when the engine manages its own time
(`limitedBySelf`), after a completed depth: if `depth >= 4` and
`info->values[info->depth] > value + 8` the ideal usage is multiplied by
1.10; if `depth >= 4` and `info->bestmoves[info->depth] != pv.line[0]` it
is (further) multiplied by 1.35; each product is capped at `maxusage`.
C `double`s are modelled as exact rationals. -/

/-- The two conditional updates of `*thread->idealusage`, in statement
order (the 1.35 step sees the result of the 1.10 step). -/
def updateIdealUsage (depth : Nat) (prevValue value : Int)
    (prevBest newBest : Nat) (ideal maxusage : ℚ) : ℚ :=
  let i1 := if 4 ≤ depth ∧ prevValue > value + 8 then
              min maxusage (ideal * (11 / 10))
            else ideal
  if 4 ≤ depth ∧ prevBest ≠ newBest then min maxusage (i1 * (27 / 20)) else i1

/-- **C8** (amended).  The 1.10 factor is applied exactly when `depth ≥ 4`
and the score dropped by *more* than 8 centipawns (at least 9, not "at
least 8"); the 1.35 factor exactly when `depth ≥ 4` and the best move
changed; each application is capped at the maximum usage, the 1.35 step
compounding on the capped 1.10 result. -/
theorem updateIdealUsage_spec (depth : Nat) (prevValue value : Int)
    (prevBest newBest : Nat) (ideal maxusage : ℚ) :
    (¬ (4 ≤ depth ∧ prevValue > value + 8) →
      ¬ (4 ≤ depth ∧ prevBest ≠ newBest) →
      updateIdealUsage depth prevValue value prevBest newBest ideal maxusage
        = ideal) ∧
    ((4 ≤ depth ∧ prevValue > value + 8) →
      ¬ (4 ≤ depth ∧ prevBest ≠ newBest) →
      updateIdealUsage depth prevValue value prevBest newBest ideal maxusage
        = min maxusage (ideal * (11 / 10))) ∧
    (¬ (4 ≤ depth ∧ prevValue > value + 8) →
      (4 ≤ depth ∧ prevBest ≠ newBest) →
      updateIdealUsage depth prevValue value prevBest newBest ideal maxusage
        = min maxusage (ideal * (27 / 20))) ∧
    ((4 ≤ depth ∧ prevValue > value + 8) →
      (4 ≤ depth ∧ prevBest ≠ newBest) →
      updateIdealUsage depth prevValue value prevBest newBest ideal maxusage
        = min maxusage (min maxusage (ideal * (11 / 10)) * (27 / 20))) := by
  refine ⟨fun h1 h2 => ?_, fun h1 h2 => ?_, fun h1 h2 => ?_, fun h1 h2 => ?_⟩
  · simp [updateIdealUsage, h1, h2]
  · have hb : prevBest = newBest := by
      by_contra hne
      exact h2 ⟨h1.1, hne⟩
    simp [updateIdealUsage, h1, hb]
  · have hv : ¬ (prevValue > value + 8) := fun hgt => h1 ⟨h2.1, hgt⟩
    simp [updateIdealUsage, h2, hv]
  · simp [updateIdealUsage, h1, h2]

/-- **C8, counterexample.**  The claim fails in two ways at a concrete
input: with a score drop of exactly 8 centipawns (depth 5, unchanged best
move) the ideal usage stays 100 instead of being multiplied by 1.10; and
at depth 3 with a changed best move it also stays 100 instead of being
multiplied by 1.35 — the code requires `depth >= 4`, a fact the claim
omits. -/
theorem updateIdealUsage_cex :
    updateIdealUsage 5 8 0 7 7 100 1000000 = 100 ∧
    (100 : ℚ) ≠ min (1000000 : ℚ) (100 * (11 / 10)) ∧
    updateIdealUsage 3 0 0 1 2 100 1000000 = 100 ∧
    (100 : ℚ) ≠ min (1000000 : ℚ) (100 * (27 / 20)) := by
  refine ⟨?_, ?_, ?_, ?_⟩
  · norm_num [updateIdealUsage]
  · norm_num
  · norm_num [updateIdealUsage]
  · norm_num

/-- Witness for **C8** (amended): depth 5, drop of 9, unchanged best move
— the 1.10 step fires and is capped against 1000000. -/
theorem updateIdealUsage_spec_witness :
    (4 ≤ 5 ∧ (9 : Int) > 0 + 8) ∧ ¬ (4 ≤ 5 ∧ (7 : Nat) ≠ 7) ∧
      updateIdealUsage 5 9 0 7 7 100 1000000
        = min (1000000 : ℚ) (100 * (11 / 10)) :=
  ⟨⟨by norm_num, by norm_num⟩, by norm_num,
    (updateIdealUsage_spec 5 9 0 7 7 100 1000000).2.1
      ⟨by norm_num, by norm_num⟩ (by norm_num)⟩

/-! ## The FEN parser (board.c:89-171, claim C5)

`boardFromFEN` begins with `clearBoard(board)` — a `memset` to zero with
`squares[]` set to `EMPTY` and `epSquare` to −1 — and then parses the six
space-separated fields into the cleared board.  It has no failure path and
never consults the previous board contents.  C strings are modelled as
`List Char`; `strtok_r` as splitting on runs of spaces, a missing token as
the empty string (where C would dereference NULL). -/

def FULL64 : Nat := 2 ^ 64 - 1

/-- Two's-complement negation on 64-bit words: `~x`. -/
def NOT64 (x : Nat) : Nat := FULL64 ^^^ x

def RANK_1 : Nat := 0xFF

def RANK_8 : Nat := 0xFF <<< 56

def RANK_2 : Nat := 0xFF <<< 8

def RANK_7 : Nat := 0xFF <<< 48

/-- `setBit`. -/
def setBit (bb sq : Nat) : Nat := bb ||| (1 <<< sq)

/-- Count of trailing zero bits (`getlsb`), fuel-structural so the kernel
can evaluate it; `getlsb(0)` is undefined in C and returns 0 here. -/
def ctzAux : Nat → Nat → Nat
  | 0, _ => 0
  | fuel + 1, n => if n % 2 = 1 then 0 else 1 + ctzAux fuel (n / 2)

def getlsbN (n : Nat) : Nat := if n = 0 then 0 else ctzAux n n

/-- Index of the highest set bit (`getmsb`), fuel-structural;
`getmsb(0)` is undefined in C and returns 0 here. -/
def msbAux : Nat → Nat → Nat
  | 0, _ => 0
  | fuel + 1, n => if n ≤ 1 then 0 else 1 + msbAux fuel (n / 2)

def getmsbN (n : Nat) : Nat := msbAux n n

/-- `strtok_r(str, " ", ..)`: the space-separated tokens. -/
def splitSpaces : List Char → List Char → List (List Char)
  | [], acc => if acc = [] then [] else [acc.reverse]
  | c :: rest, acc =>
    if c = ' ' then
      (if acc = [] then splitSpaces rest [] else acc.reverse :: splitSpaces rest [])
    else splitSpaces rest (c :: acc)

def tokens (s : List Char) : List (List Char) := splitSpaces s []

def tokGet (l : List (List Char)) (i : Nat) : List Char := l.getD i []

/-- `setSquare` (board.c:54-68). -/
def setSquare (ctx : Ctx BoardB) (b : BoardB) (colour : Bool) (piece : Nat)
    (sq : Fin 64) : BoardB :=
  let sqPiece := makePiece piece (colourIdx colour)
  { b with
    squares := Function.update b.squares sq sqPiece
    colours := Function.update b.colours (colourIdx colour)
                 (setBit (b.colours (colourIdx colour)) sq.val)
    pieces := Function.update b.pieces piece
                (setBit (b.pieces piece) sq.val)
    psqtmat := b.psqtmat + ctx.psqt sqPiece sq
    hash := b.hash ^^^ ctx.zobristKeys sqPiece sq
    pkhash := if piece = PAWN ∨ piece = KING then
                b.pkhash ^^^ ctx.zobristKeys sqPiece sq
              else b.pkhash }

/-- `clearBoard` (board.c:48-52): zero everything, squares to `EMPTY`,
`epSquare` to −1. -/
def clearBoard : BoardB :=
  { squares := fun _ => EMPTY, pieces := fun _ => 0, colours := fun _ => 0,
    turn := false, castleRooks := 0, castleMasks := fun _ => 0, epSquare := -1,
    halfMoveCounter := 0, fullMoveCounter := 0, hash := 0, pkhash := 0,
    psqtmat := 0, kingAttackers := 0, history := [], chess960 := false }

/-- The piece-placement loop of board.c:103-115: digits skip files, `/`
drops a rank, letters found in `PieceLabel[islower(ch)]` place a piece
(and advance), any other character is skipped without advancing. -/
def placeLoop (ctx : Ctx BoardB) : List Char → Int → BoardB → BoardB
  | [], _, b => b
  | c :: rest, sq, b =>
    if c.isDigit then placeLoop ctx rest (sq + ((c.toNat : Int) - 48)) b
    else if c = '/' then placeLoop ctx rest (sq - 16) b
    else
      match (if c.isLower then ['p', 'n', 'b', 'r', 'q', 'k']
             else ['P', 'N', 'B', 'R', 'Q', 'K']).findIdx? (fun x => x = c) with
      | some piece =>
        placeLoop ctx rest (sq + 1) (setSquare ctx b c.isLower piece (sqFinI sq))
      | none => placeLoop ctx rest sq b

/-- The castle-rights loop of board.c:130-137. -/
def castleRooksLoop (white black rooks : Nat) : List Char → Nat → Nat
  | [], acc => acc
  | c :: rest, acc =>
    let a1 := if c = 'K' then setBit acc (getmsbN (white &&& rooks &&& RANK_1))
              else acc
    let a2 := if c = 'Q' then setBit a1 (getlsbN (white &&& rooks &&& RANK_1))
              else a1
    let a3 := if c = 'k' then setBit a2 (getmsbN (black &&& rooks &&& RANK_8))
              else a2
    let a4 := if c = 'q' then setBit a3 (getlsbN (black &&& rooks &&& RANK_8))
              else a3
    let a5 := if 'A' ≤ c ∧ c ≤ 'H' then setBit a4 (c.toNat - 65) else a4
    let a6 := if 'a' ≤ c ∧ c ≤ 'h' then setBit a5 (56 + (c.toNat - 97)) else a5
    castleRooksLoop white black rooks rest a6

/-- The `hash ^= ZobristCastleKeys[poplsb(&rooks)]` fold of board.c:
146-147 (fuel 64: a 64-bit word has at most 64 set bits). -/
def castleHashLoop (keys : Nat → Nat) : Nat → Nat → Nat → Nat
  | 0, _, h => h
  | _ + 1, 0, h => h
  | fuel + 1, rooks, h =>
    castleHashLoop keys fuel (rooks &&& (rooks - 1)) (h ^^^ keys (getlsbN rooks))

/-- `stringToSquare` (board.c:70-73). -/
def stringToSquare (s : List Char) : Int :=
  match s with
  | [] => -1
  | c0 :: rest =>
    if c0 = '-' then -1
    else 8 * (((rest.headD '1').toNat : Int) - 49) + ((c0.toNat : Int) - 97)

def digitsVal : List Char → Nat → Nat
  | [], acc => acc
  | c :: rest, acc =>
    if c.isDigit then digitsVal rest (acc * 10 + (c.toNat - 48)) else acc

/-- `atoi` on a token (sign then leading digits). -/
def atoiM (s : List Char) : Int :=
  match s with
  | '-' :: rest => -(digitsVal rest 0 : Int)
  | '+' :: rest => (digitsVal rest 0 : Int)
  | l => (digitsVal l 0 : Int)

def StandardCastleRooks : Nat := 2 ^ 0 + 2 ^ 7 + 2 ^ 56 + 2 ^ 63

/-- `boardFromFEN` (board.c:89-171).  The `board` argument is the
caller's board; the function clears it before parsing, so the result
never depends on it. -/
def boardFromFEN (ctx : Ctx BoardB) (_board : BoardB) (fen : List Char)
    (chess960 : Bool) : BoardB :=
  let toks := tokens fen
  let b1 := placeLoop ctx (tokGet toks 0) 56 clearBoard
  let turn : Bool := ¬ ((tokGet toks 1).headD ' ' = 'w')
  let b2 := { b1 with
    turn := turn
    hash := if turn then b1.hash ^^^ ctx.zobristTurnKey else b1.hash }
  let rooks := b2.pieces ROOK
  let kings := b2.pieces KING
  let white := b2.colours 0
  let black := b2.colours 1
  let cRooks := castleRooksLoop white black rooks (tokGet toks 2) 0
  let cMasks := fun sq : Fin 64 =>
    let m1 := FULL64
    let m2 := if cRooks.testBit sq.val then m1 &&& NOT64 (1 <<< sq.val) else m1
    let m3 := if (white &&& kings).testBit sq.val then m2 &&& NOT64 white
              else m2
    if (black &&& kings).testBit sq.val then m3 &&& NOT64 black else m3
  let hash3 := castleHashLoop ctx.zobristCastleKeys 64 cRooks b2.hash
  let ep := stringToSquare (tokGet toks 3)
  let hash4 := if ep ≠ -1 then hash3 ^^^ ctx.zobristEnpassKeys (fileOf ep.toNat)
               else hash3
  let b3 := { b2 with
    castleRooks := cRooks
    castleMasks := cMasks
    hash := hash4
    epSquare := ep
    halfMoveCounter := (atoiM (tokGet toks 4)).toNat
    fullMoveCounter := (atoiM (tokGet toks 5)).toNat
    history := [] }
  let b4 := { b3 with kingAttackers := ctx.attackersToKingSquare b3 }
  { b4 with
    chess960 := chess960 || decide (cRooks &&& NOT64 StandardCastleRooks ≠ 0) }

/-- A zero context for the board.c side. -/
def ctx0B : Ctx BoardB :=
  { zobristKeys := fun _ _ => 0, zobristTurnKey := 0,
    zobristEnpassKeys := fun _ => 0, zobristCastleKeys := fun _ => 0,
    psqt := fun _ _ => 0, attackersToKingSquare := fun _ => 0,
    adjacentFilesMasks := fun _ => 0 }

/-- **C5** (amended).  `boardFromFEN` unconditionally clears the board
before parsing (board.c:100), so its result is independent of the prior
board contents — on a malformed FEN it leaves a cleared-and-partially-
parsed board, not the original board. -/
theorem boardFromFEN_ignores_prior (ctx : Ctx BoardB) (b1 b2 : BoardB)
    (fen : List Char) (chess960 : Bool) :
    boardFromFEN ctx b1 fen chess960 = boardFromFEN ctx b2 fen chess960 := rfl

/-- A prior board whose half-move counter is 5 and whose material score
is 7. -/
def fenPrev : BoardB := { clearBoard with halfMoveCounter := 5, psqtmat := 7 }

/-- **C5, counterexample.**  `"x w - - 0 1"` is not a well-formed FEN
record (its piece placement is garbage and holds no kings), yet
`boardFromFEN` does not leave the board unchanged: the half-move counter
5 of the prior board comes back 0 (and `psqtmat` 7 comes back 0) — the
board was clobbered by `clearBoard` and the partial parse. -/
theorem boardFromFEN_cex :
    fenPrev.halfMoveCounter = 5 ∧ fenPrev.psqtmat = 7 ∧
    (boardFromFEN ctx0B fenPrev "x w - - 0 1".toList false).halfMoveCounter
      = 0 ∧
    (boardFromFEN ctx0B fenPrev "x w - - 0 1".toList false).psqtmat = 0 := by
  refine ⟨rfl, rfl, ?_, ?_⟩ <;> decide

/-! ## Quiescence search (search.c:569-682, claim C10)

`qsearch` stands pat on the static evaluation, delta-prunes, iterates the
noisy moves of the picker and recurses on the legal ones.  The evaluator
(`evaluateBoard` with its `EvalInfo` attack sets and `PieceValues`), the
move picker and `isNotInCheck` live outside the snapshot; they enter as
the parameter bundle `QCtx`, so the theorem holds for all of them.  The
per-node abort/time checks and node counting are process state with no
bearing on the returned value and are not modelled. -/

structure QCtx where
  ev : Board → Int
  attacked : Board → Bool → Nat
  attackedBy2 : Board → Bool → Nat
  pick : Board → List Nat
  legalCheck : Board → Bool
  pvMG : Nat → Int
  pvEG : Nat → Int

mutual

/-- `qsearch(thread, pv, alpha, beta, height)`: at `MAX_HEIGHT` return the
static eval; stand pat (`best = value = eval`, raise alpha, beta cutoff);
delta-prune when even the best-case gain cannot reach alpha and no pawn
is about to promote; otherwise run the move loop. -/
def qsearch (ctx : Ctx Board) (q : QCtx) (b : Board) (alpha beta : Int)
    (height : Nat) : Int :=
  if hh : MAX_HEIGHT ≤ height then q.ev b
  else
    let eval := q.ev b
    let value := eval
    let alpha1 := if value > alpha then value else alpha
    if alpha1 ≥ beta then value
    else
      let maxValueGain :=
        if b.colours (colourIdx (!b.turn)) &&& b.pieces QUEEN ≠ 0 then
          q.pvEG QUEEN + 55
        else if b.colours (colourIdx (!b.turn)) &&& b.pieces ROOK ≠ 0 then
          q.pvEG ROOK + 35
        else q.pvEG BISHOP + 15
      if value + maxValueGain < alpha1 ∧
         b.colours 0 &&& b.pieces PAWN &&& RANK_7 = 0 ∧
         b.colours 1 &&& b.pieces PAWN &&& RANK_2 = 0 then value
      else qloop ctx q b eval beta height (Nat.lt_of_not_le hh) (q.pick b)
             eval alpha1
termination_by (MAX_HEIGHT - height, 1, 0)

/-- The move loop of `qsearch` (search.c:625-679): skip a move whose
best-case value (`eval + 55 + victim`, plus the promotion delta) is below
alpha; skip a capture of a protected weaker piece without a second
attacker unless it promotes; apply, reject if illegal, recurse with the
negated window, undo, raise `best`/`alpha`, cut off on `alpha ≥ beta`. -/
def qloop (ctx : Ctx Board) (q : QCtx) (b : Board) (eval beta : Int)
    (height : Nat) (hh : height < MAX_HEIGHT) (moves : List Nat)
    (best alpha : Int) : Int :=
  match moves with
  | [] => best
  | mv :: rest =>
    let guess0 := eval + 55 + q.pvEG (pieceType (b.squares (sqFin (MoveTo mv))))
    let guess := if MoveType mv = PROMOTION_MOVE then
                   guess0 + q.pvEG (1 + ((mv >>> 14) &&& 3)) - q.pvEG PAWN
                 else guess0
    if guess < alpha then qloop ctx q b eval beta height hh rest best alpha
    else if MoveType mv ≠ PROMOTION_MOVE ∧
            (q.attacked b (!b.turn)).testBit (MoveTo mv) ∧
            ¬ (q.attackedBy2 b b.turn).testBit (MoveTo mv) ∧
            q.pvMG (pieceType (b.squares (sqFin (MoveTo mv)))) <
              q.pvMG (pieceType (b.squares (sqFin (MoveFrom mv)))) then
      qloop ctx q b eval beta height hh rest best alpha
    else if ¬ q.legalCheck (applyMove ctx b mv).1 then
      qloop ctx q b eval beta height hh rest best alpha
    else
      let value := - qsearch ctx q (applyMove ctx b mv).1 (-beta) (-alpha)
                       (height + 1)
      let best' := if value > best then value else best
      let alpha' := if value > best then (if value > alpha then value else alpha)
                    else alpha
      if alpha' ≥ beta then best'
      else qloop ctx q b eval beta height hh rest best' alpha'
termination_by (MAX_HEIGHT - height, 0, moves.length)

end

/-- The move loop never returns less than the running `best` it starts
from: `best` only ever increases (search.c:662-664). -/
theorem qloop_ge_best (ctx : Ctx Board) (q : QCtx) (b : Board)
    (eval beta : Int) (height : Nat) (hh : height < MAX_HEIGHT) :
    ∀ (moves : List Nat) (best alpha : Int),
      best ≤ qloop ctx q b eval beta height hh moves best alpha := by
  intro moves
  induction moves with
  | nil =>
    intro best alpha
    rw [qloop.eq_def]
  | cons mv rest ih =>
    intro best alpha
    rw [qloop.eq_def]
    dsimp only
    split_ifs <;>
      first
      | exact ih _ _
      | omega
      | exact le_trans (by omega) (ih _ _)

/-- **C10.**  For every position, window and height, the value returned by
`qsearch` is at least the static evaluation of that position: the
stand-pat score initialises `best`, every early return yields the
stand-pat value, and `best` only ever increases — `qsearch` never returns
an uninitialised or window-dependent value below the stand-pat
evaluation.  This holds for every evaluator, move picker, attack map and
legality test (the `QCtx` bundle). -/
theorem qsearch_ge_eval (ctx : Ctx Board) (q : QCtx) (b : Board)
    (alpha beta : Int) (height : Nat) :
    q.ev b ≤ qsearch ctx q b alpha beta height := by
  rw [qsearch.eq_def]
  dsimp only
  split_ifs <;>
    first
    | exact le_rfl
    | exact qloop_ge_best ctx q b (q.ev b) beta height _ (q.pick b) (q.ev b) _
